import Mathlib

/-!
Verification of the cursive log-capture core (`src/cursive-core/src/logger.rs`).

The Rust source is shallowly embedded below.  The global `lazy_static`
state (the two filter levels, the log size, the `log` facade state and the
`LOGS` deque) is gathered in an explicit `Global` record; the `VecDeque`
of records is modelled by a list (front = oldest) together with its
allocated capacity.  The eviction check of the source compares the length
against `logs.capacity()`, the allocation, not against the configured log
size, so the allocation behaviour matters.  Rust only documents that
`VecDeque::reserve` and a growing `push_back` produce an allocation
holding at least the required number of elements; the amount of
over-allocation is unspecified.  The embedding therefore parametrises the
deque operations by an allocation policy: `Conforms` captures the
documented lower bound, theorems about the buffer quantify over every
conforming policy, and `rawVecGrow` is the concrete policy of the current
standard library for elements of this size (amortised doubling with a
minimum non-zero capacity of 4), used for concrete evaluations.
-/

namespace CursiveCore

/-- Severity levels of the `log` crate (`log::Level`).  The ordinals follow
the crate: `Error = 1` is most severe, `Trace = 5` least severe. -/
inductive Level where
  | error
  | warn
  | info
  | debug
  | trace
deriving DecidableEq, Repr

/-- Ordinal of a `log::Level`, as in the crate `usize` representation. -/
def Level.toNat : Level → Nat
  | .error => 1
  | .warn => 2
  | .info => 3
  | .debug => 4
  | .trace => 5

/-- Filter levels of the `log` crate (`log::LevelFilter`). -/
inductive LevelFilter where
  | off
  | error
  | warn
  | info
  | debug
  | trace
deriving DecidableEq, Repr

/-- Ordinal of a `log::LevelFilter` (`Off = 0`, ..., `Trace = 5`). -/
def LevelFilter.toNat : LevelFilter → Nat
  | .off => 0
  | .error => 1
  | .warn => 2
  | .info => 3
  | .debug => 4
  | .trace => 5

/-- Comparison `level <= filter` of the `log` crate, via the ordinals
(`impl PartialOrd<LevelFilter> for Level`). -/
def Level.leFilter (l : Level) (f : LevelFilter) : Bool :=
  decide (l.toNat ≤ f.toNat)

/-- Rust `Ord::max` on `log::LevelFilter` (by ordinal; on equal inputs the
second argument is returned, which is the same value). -/
def LevelFilter.maxOf (a b : LevelFilter) : LevelFilter :=
  if a.toNat ≤ b.toNat then b else a

/-- Rust `str::eq_ignore_ascii_case`: equality after ASCII upper-casing.
Byte-wise ASCII folding on UTF-8 agrees with character-wise folding, so it
is modelled on the character lists.  `Char.toUpper` only maps the ASCII
range, exactly like `u8::to_ascii_uppercase`. -/
def eqIgnoreAsciiCase (a b : String) : Bool :=
  a.data.map Char.toUpper == b.data.map Char.toUpper

/-- `FromStr for log::LevelFilter`: case-insensitive match against the
names `OFF`, `ERROR`, `WARN`, `INFO`, `DEBUG`, `TRACE`. -/
def LevelFilter.fromStr (s : String) : Option LevelFilter :=
  if eqIgnoreAsciiCase s "OFF" then some .off
  else if eqIgnoreAsciiCase s "ERROR" then some .error
  else if eqIgnoreAsciiCase s "WARN" then some .warn
  else if eqIgnoreAsciiCase s "INFO" then some .info
  else if eqIgnoreAsciiCase s "DEBUG" then some .debug
  else if eqIgnoreAsciiCase s "TRACE" then some .trace
  else none

/-- Rust `str::starts_with` on a string prefix: a byte-prefix test, which
on valid UTF-8 is the character-list prefix test. -/
def strStartsWith (s pre : String) : Bool :=
  pre.data.isPrefixOf s.data

/-- A stored log record (`struct Record` of `logger.rs`).  The
`time::OffsetDateTime` capture timestamp is modelled as an abstract
numeric instant. -/
structure Record where
  level : Level
  time : Nat
  message : String
deriving DecidableEq, Repr

/-- Metadata of a facade event (`log::Metadata`): severity plus the
source tag. -/
structure Metadata where
  level : Level
  target : String
deriving DecidableEq, Repr

/-- A facade record (`log::Record`): its metadata and the rendered
argument text (`format!` of `record.args()`). -/
structure LogRecord where
  metadata : Metadata
  args : String
deriving DecidableEq, Repr

/-- The `LOGS` deque: contents of the `VecDeque<Record>` (front = oldest)
together with its allocated capacity (`VecDeque::capacity`). -/
structure LogStore where
  capacity : Nat
  records : List Record
deriving DecidableEq, Repr

/-- `VecDeque::new()`: empty, no allocation. -/
def LogStore.new : LogStore := { capacity := 0, records := [] }

/-- An allocation policy: given the current capacity and the required
capacity, the new capacity chosen by the allocator when the deque grows.
Rust leaves this unspecified beyond a documented lower bound. -/
def Conforms (alloc : Nat → Nat → Nat) : Prop :=
  ∀ cap required, required ≤ alloc cap required

/-- The growth policy of the current Rust standard library `RawVec` for
elements of this size (well under the 1024-byte threshold): amortised
doubling, at least the required capacity, with a minimum non-zero
capacity of 4. -/
def rawVecGrow (cap required : Nat) : Nat :=
  max (max (2 * cap) required) 4

/-- `VecDeque::reserve(n)`: when fewer than `n` free slots remain, grow
the allocation to at least `len + n` elements, the exact amount chosen by
the allocation policy. -/
def LogStore.reserve (alloc : Nat → Nat → Nat) (s : LogStore) (n : Nat) : LogStore :=
  if s.capacity < s.records.length + n then
    { s with capacity := alloc s.capacity (s.records.length + n) }
  else s

/-- `VecDeque::pop_front()`, with the returned element ignored as in the
source: removes the oldest record when one exists. -/
def LogStore.popFront (s : LogStore) : LogStore :=
  { s with records := s.records.tail }

/-- `VecDeque::push_back(r)`: appends at the tail, growing the allocation
by the allocation policy when the deque is full. -/
def LogStore.pushBack (alloc : Nat → Nat → Nat) (s : LogStore) (r : Record) : LogStore :=
  if s.records.length = s.capacity then
    { capacity := alloc s.capacity (s.records.length + 1), records := s.records ++ [r] }
  else
    { s with records := s.records ++ [r] }

/-- The `Record` built by the free function `log`: level and rendered
message from the facade record, timestamp from the ambient clock
(`now_local`, falling back to `now_utc`), modelled by the `now`
argument. -/
def mkRecord (r : LogRecord) (now : Nat) : Record :=
  { level := r.metadata.level, time := now, message := r.args }

/-- The free function `log` of `logger.rs`: pop the front when length
equals the allocated capacity, then push the new record at the back. -/
def log (alloc : Nat → Nat → Nat) (s : LogStore) (record : LogRecord) (now : Nat) : LogStore :=
  let s1 := if s.records.length = s.capacity then s.popFront else s
  s1.pushBack alloc (mkRecord record now)

/-- A sequence of calls to the free function `log`, each with its clock
reading. -/
def logAll (alloc : Nat → Nat → Nat) (s : LogStore) (rs : List (LogRecord × Nat)) : LogStore :=
  rs.foldl (fun acc p => log alloc acc p.1 p.2) s

/-- The global `lazy_static` state of `logger.rs` plus the state of the
`log` facade that `init` touches: the two filter levels, the configured
log size, the facade max level, whether `log::set_logger` has been
called, and the `LOGS` deque. -/
structure Global where
  intFilterLevel : LevelFilter
  extFilterLevel : LevelFilter
  logSize : Nat
  maxLevel : LevelFilter
  loggerSet : Bool
  logs : LogStore
deriving DecidableEq, Repr

/-- Initial global state: both filter levels `Trace`, log size `1000`,
facade max level `Off`, no logger set, empty deque. -/
def Global.start : Global :=
  { intFilterLevel := .trace, extFilterLevel := .trace, logSize := 1000,
    maxLevel := .off, loggerSet := false, logs := LogStore.new }

/-- `set_int_filter_level`. -/
def set_int_filter_level (g : Global) (level : LevelFilter) : Global :=
  { g with intFilterLevel := level }

/-- `set_ext_filter_level`. -/
def set_ext_filter_level (g : Global) (level : LevelFilter) : Global :=
  { g with extFilterLevel := level }

/-- `set_log_size`. -/
def set_log_size (g : Global) (logSize : Nat) : Global :=
  { g with logSize := logSize }

/-- The two environment variables read by `set_filter_levels_with_env`
(`None` models an absent variable). -/
structure Env where
  rustLog : Option String
  cursiveLog : Option String
deriving DecidableEq, Repr

/-- First statement of `set_filter_levels_with_env`: if `RUST_LOG` is set
and parses, set both filter levels to it. -/
def applyRustLog (env : Env) (g : Global) : Global :=
  match env.rustLog with
  | some v =>
    match LevelFilter.fromStr v with
    | some f => set_ext_filter_level (set_int_filter_level g f) f
    | none => g
  | none => g

/-- Second statement of `set_filter_levels_with_env`: if `CURSIVE_LOG` is
set and parses, set the internal filter level to it. -/
def applyCursiveLog (env : Env) (g : Global) : Global :=
  match env.cursiveLog with
  | some v =>
    match LevelFilter.fromStr v with
    | some f => set_int_filter_level g f
    | none => g
  | none => g

/-- `set_filter_levels_with_env`: the `RUST_LOG` statement, then the
`CURSIVE_LOG` statement. -/
def set_filter_levels_with_env (env : Env) (g : Global) : Global :=
  applyCursiveLog env (applyRustLog env g)

/-- `CursiveLogger::enabled`: internal targets (prefix `cursive_core::`)
are checked against the internal filter level, all others against the
external one. -/
def CursiveLogger.enabled (g : Global) (metadata : Metadata) : Bool :=
  if strStartsWith metadata.target "cursive_core::" then
    metadata.level.leFilter g.intFilterLevel
  else
    metadata.level.leFilter g.extFilterLevel

/-- `CursiveLogger::log`: re-check `enabled`, and only then call the free
function `log` on the global deque. -/
def CursiveLogger.log (alloc : Nat → Nat → Nat) (g : Global) (record : LogRecord)
    (now : Nat) : Global :=
  if CursiveLogger.enabled g record.metadata then
    { g with logs := CursiveCore.log alloc g.logs record now }
  else g

/-- `reserve_logs`: reserve `n` more entries in the global deque. -/
def reserve_logs (alloc : Nat → Nat → Nat) (g : Global) (n : Nat) : Global :=
  { g with logs := g.logs.reserve alloc n }

/-- `log::set_max_level`. -/
def set_max_level (g : Global) (f : LevelFilter) : Global :=
  { g with maxLevel := f }

/-- Outcome of `init`: normal return, or a panic (the `unwrap` on
`log::set_logger`), each carrying the global state left behind. -/
inductive InitResult where
  | ok (g : Global)
  | panicked (g : Global)
deriving DecidableEq, Repr

/-- Whether an `InitResult` is the panic outcome. -/
def InitResult.isPanicked : InitResult → Bool
  | .ok _ => false
  | .panicked _ => true

/-- The global state carried by an `InitResult`. -/
def InitResult.state : InitResult → Global
  | .ok g => g
  | .panicked g => g

/-- `init`: reserve the configured log size, set the facade max level to
the larger of the two filter levels, then `log::set_logger(..).unwrap()`,
which panics exactly when a logger is already set. -/
def init (alloc : Nat → Nat → Nat) (g : Global) : InitResult :=
  let g1 := reserve_logs alloc g g.logSize
  let g2 := set_max_level g1 (g1.intFilterLevel.maxOf g1.extFilterLevel)
  if g2.loggerSet then InitResult.panicked g2
  else InitResult.ok { g2 with loggerSet := true }

/-- Sample facade records used to instantiate the lemmas below. -/
def rec1 : LogRecord := { metadata := { level := .info, target := "myapp" }, args := "1" }

/-- Second sample facade record. -/
def rec2 : LogRecord := { metadata := { level := .debug, target := "myapp" }, args := "2" }

/-- Third sample facade record. -/
def rec3 : LogRecord := { metadata := { level := .warn, target := "myapp" }, args := "3" }

/-- Global state with internal filter `Warn` and external filter `Debug`. -/
def gWarnDebug : Global :=
  { Global.start with intFilterLevel := .warn, extFilterLevel := .debug }

/-- Global state with both filters `Off`. -/
def gOff : Global :=
  { Global.start with intFilterLevel := .off, extFilterLevel := .off }

/-- Global state with a small configured log size. -/
def gSmall : Global := { Global.start with logSize := 2 }

/-- The global state produced by a first `init` from `gSmall` under the
standard-library growth policy (the reserve of 2 allocates 4). -/
def gC7 : Global :=
  { intFilterLevel := .trace, extFilterLevel := .trace, logSize := 2,
    maxLevel := .trace, loggerSet := true,
    logs := { capacity := 4, records := [] } }

theorem rawVecGrow_conforms : Conforms rawVecGrow := by
  intro cap required
  unfold rawVecGrow
  omega

theorem reserve_records_eq (alloc : Nat → Nat → Nat) (s : LogStore) (n : Nat) :
    (s.reserve alloc n).records = s.records := by
  unfold LogStore.reserve
  split <;> rfl

theorem log_spec (alloc : Nat → Nat → Nat) (s : LogStore) (r : LogRecord) (t : Nat)
    (hc : 1 ≤ s.capacity) (hl : s.records.length ≤ s.capacity) :
    (log alloc s r t).capacity = s.capacity ∧
    (log alloc s r t).records =
      (s.records ++ [mkRecord r t]).drop (s.records.length + 1 - s.capacity) := by
  by_cases h : s.records.length = s.capacity
  · rcases hrec : s.records with _ | ⟨a, as⟩
    · rw [hrec] at h
      simp at h
      omega
    · have hcap : s.capacity = as.length + 1 := by rw [← h, hrec]; simp
      have htail : ¬ (as.length = s.capacity) := by omega
      have hcond : as.length + 1 = s.capacity := by omega
      have hidx : s.capacity + 1 - s.capacity = 1 := by omega
      constructor
      · simp [log, LogStore.popFront, LogStore.pushBack, hrec, hcond, htail]
      · simp [log, LogStore.popFront, LogStore.pushBack, hrec, hcond, htail, hidx]
  · have hlt : s.records.length < s.capacity := Nat.lt_of_le_of_ne hl h
    constructor
    · simp [log, LogStore.popFront, LogStore.pushBack, h]
    · simp only [log, LogStore.popFront, LogStore.pushBack, if_neg h]
      have hidx : s.records.length + 1 - s.capacity = 0 := by omega
      rw [hidx]
      simp

theorem logAll_spec (alloc : Nat → Nat → Nat) (rs : List (LogRecord × Nat)) :
    ∀ s : LogStore, 1 ≤ s.capacity → s.records.length ≤ s.capacity →
    (logAll alloc s rs).capacity = s.capacity ∧
    (logAll alloc s rs).records =
      (s.records ++ rs.map (fun p => mkRecord p.1 p.2)).drop
        (s.records.length + rs.length - s.capacity) := by
  induction rs with
  | nil =>
    intro s hc hl
    refine ⟨rfl, ?_⟩
    have h0 : s.records.length - s.capacity = 0 := by omega
    simp [logAll, h0]
  | cons p rest ih =>
    intro s hc hl
    have hstep := log_spec alloc s p.1 p.2 hc hl
    have hle : (log alloc s p.1 p.2).records.length ≤ (log alloc s p.1 p.2).capacity := by
      rw [hstep.1, hstep.2, List.length_drop]
      simp only [List.length_append, List.length_cons, List.length_nil]
      omega
    have hmain := ih (log alloc s p.1 p.2) (by rw [hstep.1]; exact hc) hle
    have hfold : logAll alloc s (p :: rest) = logAll alloc (log alloc s p.1 p.2) rest := rfl
    refine ⟨by rw [hfold, hmain.1, hstep.1], ?_⟩
    rw [hfold, hmain.2, hstep.1, hstep.2, List.length_drop]
    have hd1 : s.records.length + 1 - s.capacity ≤ (s.records ++ [mkRecord p.1 p.2]).length := by
      simp only [List.length_append, List.length_cons, List.length_nil]
      omega
    rw [← List.drop_append_of_le_length hd1, List.drop_drop]
    congr 1
    · simp only [List.length_append, List.length_cons, List.length_nil, List.length_map]
      omega
    · simp

theorem reserve_from_empty (alloc : Nat → Nat → Nat) (C : Nat) (hC : 1 ≤ C) :
    LogStore.new.reserve alloc C = { capacity := alloc 0 C, records := [] } := by
  unfold LogStore.new LogStore.reserve
  simp only [List.length_nil, Nat.zero_add]
  rw [if_pos (by omega)]

/-- C1: the claim as stated is false, because the eviction check of
`log` compares the length against the allocation, and `reserve` may
over-allocate: under the standard-library growth policy a reserve of 2
allocates 4 slots, so three pushes leave three stored records, not
`min 3 2 = 2`. -/
theorem C1_cex :
    ¬ ((logAll rawVecGrow (LogStore.new.reserve rawVecGrow 2)
        [(rec1, 1), (rec2, 2), (rec3, 3)]).records.length = min 3 2) := by
  decide

/-- C1 (amended): for every allocation policy meeting the documented
lower bound, every configured capacity `C ≥ 1` and every sequence of `N`
pushes into the freshly reserved store, the stored length equals
`min N K` where `K` is the allocated capacity produced by the reserve
(`K ≥ C`, with `K = C` not guaranteed), and after every prefix of the
sequence the length is at most the allocated capacity. -/
theorem C1_thm (alloc : Nat → Nat → Nat) (halloc : Conforms alloc) (C : Nat)
    (rs : List (LogRecord × Nat)) (k : Nat) (hC : 1 ≤ C) :
    C ≤ (LogStore.new.reserve alloc C).capacity ∧
    (logAll alloc (LogStore.new.reserve alloc C) rs).records.length =
      min rs.length (LogStore.new.reserve alloc C).capacity ∧
    (logAll alloc (LogStore.new.reserve alloc C) (rs.take k)).records.length ≤
      (logAll alloc (LogStore.new.reserve alloc C) (rs.take k)).capacity := by
  have hK : C ≤ alloc 0 C := halloc 0 C
  have hK1 : 1 ≤ alloc 0 C := le_trans hC hK
  rw [reserve_from_empty alloc C hC]
  refine ⟨hK, ?_, ?_⟩
  · have h := logAll_spec alloc rs { capacity := alloc 0 C, records := [] }
      hK1 (Nat.zero_le _)
    rw [h.2, List.length_drop]
    simp only [List.nil_append, List.length_map, List.length_nil]
    omega
  · have h := logAll_spec alloc (rs.take k) { capacity := alloc 0 C, records := [] }
      hK1 (Nat.zero_le _)
    rw [h.1, h.2, List.length_drop]
    simp only [List.nil_append, List.length_map, List.length_nil]
    omega

/-- Witness for C1_thm: standard-library growth, capacity 2, three
pushes, prefix of length 1; the reserve allocates 4, so all three records
stay. -/
theorem C1_wit :
    1 ≤ 2 ∧
    (2 ≤ (LogStore.new.reserve rawVecGrow 2).capacity ∧
      (logAll rawVecGrow (LogStore.new.reserve rawVecGrow 2)
          [(rec1, 1), (rec2, 2), (rec3, 3)]).records.length =
        min [(rec1, 1), (rec2, 2), (rec3, 3)].length
          (LogStore.new.reserve rawVecGrow 2).capacity ∧
      (logAll rawVecGrow (LogStore.new.reserve rawVecGrow 2)
          ([(rec1, 1), (rec2, 2), (rec3, 3)].take 1)).records.length ≤
        (logAll rawVecGrow (LogStore.new.reserve rawVecGrow 2)
          ([(rec1, 1), (rec2, 2), (rec3, 3)].take 1)).capacity) :=
  ⟨by decide, C1_thm rawVecGrow rawVecGrow_conforms 2 [(rec1, 1), (rec2, 2), (rec3, 3)] 1
    (by decide)⟩

/-- C2: the claim as stated is false: under the standard-library growth
policy a reserve of 1 allocates 4 slots, so after two pushes the store
still holds both records, not only the last `C = 1` of them. -/
theorem C2_cex :
    ¬ ((logAll rawVecGrow (LogStore.new.reserve rawVecGrow 1) [(rec1, 1), (rec2, 2)]).records =
      ([(rec1, 1), (rec2, 2)].map (fun p => mkRecord p.1 p.2)).drop (2 - 1)) := by
  decide

/-- C2 (amended): for every allocation policy meeting the documented
lower bound and every capacity `C ≥ 1`, pushing `N > C` records into the
freshly reserved store leaves exactly the last `min N K` pushed records
in push order, where `K ≥ C` is the allocated capacity produced by the
reserve: a push at full allocated capacity evicts the oldest record
before appending at the tail. -/
theorem C2_thm (alloc : Nat → Nat → Nat) (halloc : Conforms alloc) (C : Nat)
    (rs : List (LogRecord × Nat)) (hC : 1 ≤ C) (_hN : C < rs.length) :
    C ≤ (LogStore.new.reserve alloc C).capacity ∧
    (logAll alloc (LogStore.new.reserve alloc C) rs).records =
      (rs.map (fun p => mkRecord p.1 p.2)).drop
        (rs.length - (LogStore.new.reserve alloc C).capacity) := by
  have hK : C ≤ alloc 0 C := halloc 0 C
  have hK1 : 1 ≤ alloc 0 C := le_trans hC hK
  rw [reserve_from_empty alloc C hC]
  refine ⟨hK, ?_⟩
  have h := logAll_spec alloc rs { capacity := alloc 0 C, records := [] }
    hK1 (Nat.zero_le _)
  rw [h.2]
  simp

/-- Witness for C2_thm: standard-library growth, capacity 1, two pushes;
the reserve allocates 4, so both records remain, the last `min 2 4`. -/
theorem C2_wit :
    1 ≤ 1 ∧ 1 < 2 ∧
    (1 ≤ (LogStore.new.reserve rawVecGrow 1).capacity ∧
      (logAll rawVecGrow (LogStore.new.reserve rawVecGrow 1) [(rec1, 1), (rec2, 2)]).records =
        ([(rec1, 1), (rec2, 2)].map (fun p => mkRecord p.1 p.2)).drop
          (2 - (LogStore.new.reserve rawVecGrow 1).capacity)) :=
  ⟨by decide, by decide,
    C2_thm rawVecGrow rawVecGrow_conforms 1 [(rec1, 1), (rec2, 2)] (by decide) (by decide)⟩

/-- C3: the claim that a zero-capacity store stays empty is false: one
push into the zero-capacity store leaves one stored record, because
`pop_front` on an empty deque removes nothing and `push_back` grows the
allocation instead of evicting the new record. -/
theorem C3_cex :
    ¬ ((logAll rawVecGrow (LogStore.new.reserve rawVecGrow 0) [(rec3, 3)]).records.length = 0) := by
  decide

/-- C3 (amended): with configured capacity zero every push still
completes (the model is a total function, no panic), but the store does
not stay empty: for every allocation policy meeting the documented lower
bound, the first push grows the allocation to some `K ≥ 1` and after `N`
pushes the stored length is `min N K` (`K = 4` under the standard-library
policy), so the most recent records are retained. -/
theorem C3_thm (alloc : Nat → Nat → Nat) (halloc : Conforms alloc)
    (rs : List (LogRecord × Nat)) :
    1 ≤ alloc 0 1 ∧
    (logAll alloc (LogStore.new.reserve alloc 0) rs).records.length =
      min rs.length (alloc 0 1) := by
  have hK1 : 1 ≤ alloc 0 1 := halloc 0 1
  refine ⟨hK1, ?_⟩
  have hres : LogStore.new.reserve alloc 0 = LogStore.new := by
    unfold LogStore.new LogStore.reserve
    rw [if_neg (by decide)]
  rw [hres]
  rcases rs with _ | ⟨p, rest⟩
  · simp [logAll, LogStore.new]
  · have hfold : logAll alloc LogStore.new (p :: rest) =
        logAll alloc (log alloc LogStore.new p.1 p.2) rest := rfl
    have hfirst : log alloc LogStore.new p.1 p.2 =
        { capacity := alloc 0 1, records := [mkRecord p.1 p.2] } := rfl
    have h := logAll_spec alloc rest { capacity := alloc 0 1, records := [mkRecord p.1 p.2] }
      hK1 (by simpa using hK1)
    have hcap : ({ capacity := alloc 0 1, records := [mkRecord p.1 p.2] } : LogStore).capacity =
        alloc 0 1 := rfl
    have hrec : ({ capacity := alloc 0 1, records := [mkRecord p.1 p.2] } : LogStore).records =
        [mkRecord p.1 p.2] := rfl
    rw [hfold, hfirst, h.2, hcap, hrec, List.length_drop]
    simp only [List.cons_append, List.nil_append, List.length_cons, List.length_map,
      List.length_nil]
    omega

/-- Witness for C3_thm: standard-library growth, five pushes into the
zero-capacity store; the grown allocation is 4, so four records remain. -/
theorem C3_wit :
    1 ≤ rawVecGrow 0 1 ∧
    (logAll rawVecGrow (LogStore.new.reserve rawVecGrow 0)
        [(rec1, 1), (rec2, 2), (rec3, 3), (rec1, 4), (rec2, 5)]).records.length =
      min 5 (rawVecGrow 0 1) :=
  C3_thm rawVecGrow rawVecGrow_conforms [(rec1, 1), (rec2, 2), (rec3, 3), (rec1, 4), (rec2, 5)]

/-- C4: `enabled` classifies an event as internal exactly when its target
starts with the reserved prefix, admits it exactly when its severity
ordinal is at most the ordinal of the corresponding threshold, and in
particular rejects an internal Info event under internal threshold Warn
while accepting an external Info event under external threshold Debug. -/
theorem C4_thm (g : Global) (md : Metadata) :
    (strStartsWith md.target "cursive_core::" = true →
      (CursiveLogger.enabled g md = true ↔ md.level.toNat ≤ g.intFilterLevel.toNat)) ∧
    (strStartsWith md.target "cursive_core::" = false →
      (CursiveLogger.enabled g md = true ↔ md.level.toNat ≤ g.extFilterLevel.toNat)) ∧
    (g.intFilterLevel = LevelFilter.warn → g.extFilterLevel = LevelFilter.debug →
      CursiveLogger.enabled g { level := Level.info, target := "cursive_core::views" } = false ∧
      CursiveLogger.enabled g { level := Level.info, target := "myapp" } = true) := by
  refine ⟨?_, ?_, ?_⟩
  · intro h
    simp [CursiveLogger.enabled, h, Level.leFilter]
  · intro h
    simp [CursiveLogger.enabled, h, Level.leFilter]
  · intro h1 h2
    have hsw1 : strStartsWith "cursive_core::views" "cursive_core::" = true := by decide
    have hsw2 : strStartsWith "myapp" "cursive_core::" = false := by decide
    constructor
    · simp [CursiveLogger.enabled, hsw1, h1, Level.leFilter, Level.toNat, LevelFilter.toNat]
    · simp [CursiveLogger.enabled, hsw2, h2, Level.leFilter, Level.toNat, LevelFilter.toNat]

/-- Witness for C4_thm at internal threshold Warn and external threshold
Debug. -/
theorem C4_wit :
    gWarnDebug.intFilterLevel = LevelFilter.warn ∧
    gWarnDebug.extFilterLevel = LevelFilter.debug ∧
    CursiveLogger.enabled gWarnDebug { level := Level.info, target := "cursive_core::views" } = false ∧
    CursiveLogger.enabled gWarnDebug { level := Level.info, target := "myapp" } = true :=
  ⟨rfl, rfl,
    ((C4_thm gWarnDebug { level := Level.info, target := "cursive_core::views" }).2.2 rfl rfl).1,
    ((C4_thm gWarnDebug { level := Level.info, target := "myapp" }).2.2 rfl rfl).2⟩

/-- C5: when both environment variables parse, `set_filter_levels_with_env`
sets the external threshold to the global value and the internal threshold
to the internal-only value, the latter taking precedence. -/
theorem C5_thm (env : Env) (g : Global) (f1 f2 : LevelFilter)
    (h1 : env.rustLog.bind LevelFilter.fromStr = some f1)
    (h2 : env.cursiveLog.bind LevelFilter.fromStr = some f2) :
    (set_filter_levels_with_env env g).intFilterLevel = f2 ∧
    (set_filter_levels_with_env env g).extFilterLevel = f1 := by
  rcases env with ⟨ro, co⟩
  rcases ro with _ | v
  · simp at h1
  · rcases co with _ | w
    · simp at h2
    · simp only [Option.some_bind] at h1 h2
      simp [set_filter_levels_with_env, applyRustLog, applyCursiveLog, h1, h2,
        set_int_filter_level, set_ext_filter_level]

/-- Witness for C5_thm: global variable Info, internal-only variable
Error, as in the spec example. -/
theorem C5_wit :
    (Env.mk (some "Info") (some "Error")).rustLog.bind LevelFilter.fromStr =
      some LevelFilter.info ∧
    (Env.mk (some "Info") (some "Error")).cursiveLog.bind LevelFilter.fromStr =
      some LevelFilter.error ∧
    (set_filter_levels_with_env (Env.mk (some "Info") (some "Error")) Global.start).intFilterLevel =
      LevelFilter.error ∧
    (set_filter_levels_with_env (Env.mk (some "Info") (some "Error")) Global.start).extFilterLevel =
      LevelFilter.info :=
  ⟨by decide, by decide,
    (C5_thm (Env.mk (some "Info") (some "Error")) Global.start LevelFilter.info LevelFilter.error
      (by decide) (by decide)).1,
    (C5_thm (Env.mk (some "Info") (some "Error")) Global.start LevelFilter.info LevelFilter.error
      (by decide) (by decide)).2⟩

theorem applyRustLog_of_none (env : Env) (g : Global)
    (h : env.rustLog.bind LevelFilter.fromStr = none) : applyRustLog env g = g := by
  unfold applyRustLog
  split
  · rename_i v heq
    rw [heq, Option.some_bind] at h
    rw [h]
  · rfl

theorem applyCursiveLog_of_none (env : Env) (g : Global)
    (h : env.cursiveLog.bind LevelFilter.fromStr = none) : applyCursiveLog env g = g := by
  unfold applyCursiveLog
  split
  · rename_i v heq
    rw [heq, Option.some_bind] at h
    rw [h]
  · rfl

theorem applyCursiveLog_ext (env : Env) (g : Global) :
    (applyCursiveLog env g).extFilterLevel = g.extFilterLevel := by
  unfold applyCursiveLog
  split
  · split
    · rfl
    · rfl
  · rfl

/-- C6: an absent or unparseable environment variable is ignored: the
bootstrap behaves as if that variable were absent, the external threshold
is unchanged when the global variable fails, and when both variables fail
the whole state is unchanged (no error is surfaced: the function is
total). -/
theorem C6_thm (env : Env) (g : Global) :
    (env.rustLog.bind LevelFilter.fromStr = none →
      set_filter_levels_with_env env g =
        set_filter_levels_with_env { env with rustLog := none } g) ∧
    (env.cursiveLog.bind LevelFilter.fromStr = none →
      set_filter_levels_with_env env g =
        set_filter_levels_with_env { env with cursiveLog := none } g) ∧
    (env.rustLog.bind LevelFilter.fromStr = none →
      (set_filter_levels_with_env env g).extFilterLevel = g.extFilterLevel) ∧
    (env.rustLog.bind LevelFilter.fromStr = none →
      env.cursiveLog.bind LevelFilter.fromStr = none →
      set_filter_levels_with_env env g = g) := by
  refine ⟨?_, ?_, ?_, ?_⟩
  · intro h
    unfold set_filter_levels_with_env
    rw [applyRustLog_of_none env g h]
    rfl
  · intro h
    unfold set_filter_levels_with_env
    rw [applyCursiveLog_of_none env (applyRustLog env g) h]
    rfl
  · intro h
    unfold set_filter_levels_with_env
    rw [applyRustLog_of_none env g h]
    exact applyCursiveLog_ext env g
  · intro h1 h2
    unfold set_filter_levels_with_env
    rw [applyRustLog_of_none env g h1, applyCursiveLog_of_none env g h2]

/-- Witness for C6_thm: both variables set to unparseable strings leave
the state untouched. -/
theorem C6_wit :
    (Env.mk (some "verbose") (some "chatty")).rustLog.bind LevelFilter.fromStr = none ∧
    (Env.mk (some "verbose") (some "chatty")).cursiveLog.bind LevelFilter.fromStr = none ∧
    (set_filter_levels_with_env (Env.mk (some "verbose") (some "chatty"))
        Global.start).extFilterLevel = Global.start.extFilterLevel ∧
    set_filter_levels_with_env (Env.mk (some "verbose") (some "chatty")) Global.start =
      Global.start :=
  ⟨by decide, by decide,
    (C6_thm (Env.mk (some "verbose") (some "chatty")) Global.start).2.2.1 (by decide),
    (C6_thm (Env.mk (some "verbose") (some "chatty")) Global.start).2.2.2 (by decide) (by decide)⟩

theorem init_ok_loggerSet (alloc : Nat → Nat → Nat) (g0 g1 : Global)
    (h : init alloc g0 = InitResult.ok g1) : g1.loggerSet = true := by
  simp only [init] at h
  split at h
  · exact absurd h (by simp)
  · injection h with h2
    rw [← h2]

theorem init_panicked_of_set (alloc : Nat → Nat → Nat) (g : Global)
    (h : g.loggerSet = true) :
    (init alloc g).isPanicked = true ∧
    (init alloc g).state.logs.records = g.logs.records := by
  have hcond : (set_max_level (reserve_logs alloc g g.logSize)
      ((reserve_logs alloc g g.logSize).intFilterLevel.maxOf
        (reserve_logs alloc g g.logSize).extFilterLevel)).loggerSet = true := h
  simp only [init]
  rw [if_pos hcond]
  exact ⟨rfl, reserve_records_eq alloc g.logs g.logSize⟩

/-- C7: for every allocation policy, a second `init` in the same process
panics on `set_logger` (the facade rejects double registration) while the
records stored before the second call are unchanged by it. -/
theorem C7_thm (alloc : Nat → Nat → Nat) (g0 g1 : Global)
    (h : init alloc g0 = InitResult.ok g1) :
    g1.loggerSet = true ∧ (init alloc g1).isPanicked = true ∧
    (init alloc g1).state.logs.records = g1.logs.records := by
  have hset := init_ok_loggerSet alloc g0 g1 h
  exact ⟨hset, (init_panicked_of_set alloc g1 hset).1,
    (init_panicked_of_set alloc g1 hset).2⟩

/-- Witness for C7_thm: under the standard-library growth policy a first
`init` from `gSmall` succeeds, the second one panics and keeps the
records. -/
theorem C7_wit :
    init rawVecGrow gSmall = InitResult.ok gC7 ∧
    (gC7.loggerSet = true ∧ (init rawVecGrow gC7).isPanicked = true ∧
      (init rawVecGrow gC7).state.logs.records = gC7.logs.records) :=
  ⟨by decide, C7_thm rawVecGrow gSmall gC7 (by decide)⟩

/-- C8: the free function `log` stores the pushed record unconditionally
at the tail of the store, for every store and record, while the sink
method `CursiveLogger::log` leaves the global state unchanged whenever
`enabled` rejects the record; the free push path consults no threshold. -/
theorem C8_thm (alloc : Nat → Nat → Nat) (g : Global) (s : LogStore) (r : LogRecord)
    (now : Nat) (h : CursiveLogger.enabled g r.metadata = false) :
    (log alloc s r now).records.getLast? = some (mkRecord r now) ∧
    CursiveLogger.log alloc g r now = g := by
  constructor
  · have hpush : ∀ s1 : LogStore,
        (s1.pushBack alloc (mkRecord r now)).records = s1.records ++ [mkRecord r now] := by
      intro s1
      unfold LogStore.pushBack
      split <;> rfl
    simp only [log]
    rw [hpush]
    exact List.getLast?_concat _
  · simp [CursiveLogger.log, h]

/-- Witness for C8_thm: with both thresholds Off an Info record is
rejected by the sink yet stored by the free `log` function. -/
theorem C8_wit :
    CursiveLogger.enabled gOff rec1.metadata = false ∧
    (log rawVecGrow LogStore.new rec1 9).records.getLast? = some (mkRecord rec1 9) ∧
    CursiveLogger.log rawVecGrow gOff rec1 9 = gOff :=
  ⟨by decide,
    (C8_thm rawVecGrow gOff LogStore.new rec1 9 (by decide)).1,
    (C8_thm rawVecGrow gOff LogStore.new rec1 9 (by decide)).2⟩

/-- C9: any event whose target does not start with the literal prefix is
checked against the external threshold; in particular the target
`cursive_core` without the double colon is external. -/
theorem C9_thm (g : Global) (md : Metadata)
    (h : strStartsWith md.target "cursive_core::" = false) :
    CursiveLogger.enabled g md = md.level.leFilter g.extFilterLevel := by
  simp [CursiveLogger.enabled, h]

/-- Witness for C9_thm at the exact target `cursive_core`, which does not
carry the internal prefix. -/
theorem C9_wit :
    strStartsWith "cursive_core" "cursive_core::" = false ∧
    CursiveLogger.enabled gWarnDebug { level := Level.info, target := "cursive_core" } =
      Level.leFilter Level.info gWarnDebug.extFilterLevel :=
  ⟨by decide,
    C9_thm gWarnDebug { level := Level.info, target := "cursive_core" } (by decide)⟩

/-- C10: for every allocation policy meeting the documented lower bound,
`reserve_logs` never changes the stored records or their order, and
calling it again with the same argument is a no-op. -/
theorem C10_thm (alloc : Nat → Nat → Nat) (halloc : Conforms alloc) (s : LogStore)
    (n : Nat) :
    (s.reserve alloc n).records = s.records ∧
    (s.reserve alloc n).reserve alloc n = s.reserve alloc n := by
  constructor
  · exact reserve_records_eq alloc s n
  · simp only [LogStore.reserve]
    by_cases h : s.capacity < s.records.length + n
    · have hno : ¬ (({ s with capacity := alloc s.capacity (s.records.length + n) } :
          LogStore).capacity <
          ({ s with capacity := alloc s.capacity (s.records.length + n) } :
            LogStore).records.length + n) := by
        show ¬ (alloc s.capacity (s.records.length + n) < s.records.length + n)
        have := halloc s.capacity (s.records.length + n)
        omega
      rw [if_pos h, if_neg hno]
    · rw [if_neg h, if_neg h]

/-- Witness for C10_thm: the standard-library growth policy, a fresh
deque and a reserve of 3. -/
theorem C10_wit :
    (LogStore.new.reserve rawVecGrow 3).records = LogStore.new.records ∧
    (LogStore.new.reserve rawVecGrow 3).reserve rawVecGrow 3 =
      LogStore.new.reserve rawVecGrow 3 :=
  C10_thm rawVecGrow rawVecGrow_conforms LogStore.new 3

end CursiveCore
